import Mathlib

/-!
A shallow embedding of the clatter_rs numerical kernel
(src/clatter_rs/src/lib.rs) together with proofs settling the frozen claims.

Modelling conventions:
* `f64` values are modelled as exact rationals; a decimal literal denotes the
  rational it is written as, and `powf(2.0)` is squaring.
* Transcendental operations (`tanh`, `cos`, `x ↦ 10^x`) and the constant `TAU`
  are taken as explicit function/value parameters so that every definition
  stays computable; claims quantify over them.
* Buffers are `List ℚ` values; `&mut` parameters are threaded state.
* A Rust panic (out-of-bounds index or slice, `usize` underflow under
  overflow-checked semantics, `unwrap` of `None`, `unreachable!`) is modelled
  as `Option.none`.
-/

namespace Clatter

/-- Checked `usize` subtraction: `none` models the underflow panic. -/
def checkedSub (a b : Nat) : Option Nat :=
  if b ≤ a then some (a - b) else none

/-- `data[i] = v`, panicking (`none`) when out of bounds. -/
def setA (l : List ℚ) (i : Nat) (v : ℚ) : Option (List ℚ) :=
  if i < l.length then some (l.set i v) else none

/-- `data.swap(i, j)`, panicking (`none`) when out of bounds. -/
def swapA (l : List ℚ) (i j : Nat) : Option (List ℚ) := do
  let vi ← l.get? i
  let vj ← l.get? j
  some ((l.set i vj).set j vi)

/-- `iter().min_by(total_cmp).unwrap()`: the minimum value of a buffer
(`none` models the `unwrap` panic on an empty buffer).  Written as an explicit
fold so that it reduces in the kernel. -/
def listMin : List ℚ → Option ℚ
  | [] => none
  | x :: xs => some (xs.foldl (fun a b => if b < a then b else a) x)

/-- `iter().max_by(total_cmp).unwrap()`: the maximum value of a buffer. -/
def listMax : List ℚ → Option ℚ
  | [] => none
  | x :: xs => some (xs.foldl (fun a b => if a < b then b else a) x)

/-- State of the Rust `MedianFilter` struct: the 5-slot ring buffer, the four
scratch offset buffers, the rotating write offset and the full flag. -/
structure MedianFilter where
  buffer : List ℚ
  offset_buffer_1 : List ℚ
  offset_buffer_2 : List ℚ
  offset_buffer_3 : List ℚ
  offset_buffer_4 : List ℚ
  offset : Nat
  full : Bool
deriving DecidableEq, Repr

/-- The inner partition scan of `select_in_place` (the `for _ in 0usize..100`
loop).  The two `find(...).unwrap()` calls keep the index of the match
relative to the scanned slice, exactly as the source does; `none` models the
`unwrap` panic when a scan finds no element. -/
def innerLoop (pivot : ℚ) : Nat → List ℚ → Nat → Nat → Option (List ℚ × Nat × Nat)
  | 0, data, b, e => some (data, b, e)
  | fuel + 1, data, b, e => do
    let b2 ← (data.drop b).findIdx? (fun w => decide (w < pivot))
    let e2 ← ((data.take e).reverse).findIdx? (fun w => decide (pivot < w))
    if e2 < b2 then
      some (data, b2, e2)
    else do
      let data2 ← swapA data b2 e2
      innerLoop pivot fuel data2 b2 e2

/-- The outer `for _ in 0..100` loop of `select_in_place`; on fuel exhaustion
the source falls through and returns the `0.0` sentinel. -/
def outerLoop (rank : Nat) : Nat → List ℚ → Nat → Nat → Option (List ℚ × ℚ)
  | 0, data, _, _ => some (data, 0)
  | fuel + 1, data, low, high =>
    let low1 := low + 1
    if high ≤ low1 then
      if high = low1 then do
        let dh ← data.get? high
        let dl ← data.get? low
        let data2 ← if dh < dl then swapA data low high else some data
        let r ← data2.get? rank
        some (data2, r)
      else do
        let r ← data.get? rank
        some (data, r)
    else do
      let data1 ← swapA data ((low + high) / 2) low1
      let a1 ← data1.get? low
      let a2 ← data1.get? high
      let data2 ← if a2 < a1 then swapA data1 low high else some data1
      let a3 ← data2.get? low
      let a4 ← data2.get? low1
      let data3 ← if a4 < a3 then swapA data2 low low1 else some data2
      let pivot ← data3.get? low1
      let res ← innerLoop pivot 100 data3 low1 high
      let data4 := res.1
      let bg := res.2.1
      let en := res.2.2
      let de ← data4.get? en
      let data5 ← setA data4 low1 de
      let data6 ← setA data5 en pivot
      let high2 ← if rank ≤ en then checkedSub en 1 else some high
      let low2 := if en ≤ rank then bg else low
      outerLoop rank fuel data6 low2 high2

/-- `MedianFilter::select_in_place`.  Returns the selected value together with
the mutated buffer (the source takes `&mut`). -/
def select_in_place (data : List ℚ) (rank : Int) : Option (List ℚ × ℚ) :=
  if rank ≤ 0 then
    (listMin data).map (fun m => (data, m))
  else
    match data.length with
    | 0 => none
    | n + 1 =>
      if n ≤ rank.toNat then (listMax data).map (fun m => (data, m))
      else outerLoop rank.toNat 100 data 0 n

/-- `MedianFilter::median_in_place`. -/
def median_in_place (data : List ℚ) : Option (List ℚ × ℚ) :=
  let k : Int := (data.length / 2 : Nat)
  if data.length % 2 ≠ 0 then
    select_in_place data k
  else do
    let r1 ← select_in_place data (k - 1)
    let r2 ← select_in_place r1.1 k
    some (r2.1, (r1.2 + r2.2) / 2)

/-- `MedianFilter::process`.  The not-yet-full branch copies
`buffer[0..length]` — the front of the ring buffer — into the scratch buffer,
exactly as the source does. -/
def MedianFilter.process (mf : MedianFilter) (sample : ℚ) : Option (MedianFilter × ℚ) := do
  let offset := if mf.offset = 0 then 4 else mf.offset - 1
  let buffer ← setA mf.buffer offset sample
  let full := mf.full || decide (offset = 0)
  if full then do
    let r ← median_in_place buffer
    some ({ mf with buffer := r.1, offset := offset, full := full }, r.2)
  else do
    let length := 5 - offset
    let ob ← match length with
      | 1 => some mf.offset_buffer_1
      | 2 => some mf.offset_buffer_2
      | 3 => some mf.offset_buffer_3
      | 4 => some mf.offset_buffer_4
      | _ => none
    if length ≤ ob.length ∧ length ≤ buffer.length then do
      let ob2 := buffer.take length ++ ob.drop length
      let r ← median_in_place ob2
      let mf2 := { mf with buffer := buffer, offset := offset, full := full }
      let mf3 : MedianFilter := match length with
        | 1 => { mf2 with offset_buffer_1 := r.1 }
        | 2 => { mf2 with offset_buffer_2 := r.1 }
        | 3 => { mf2 with offset_buffer_3 := r.1 }
        | _ => { mf2 with offset_buffer_4 := r.1 }
      some (mf3, r.2)
    else none

/-- Feed a list of samples through the filter one `process` call at a time,
collecting the outputs. -/
def processSeq (mf : MedianFilter) : List ℚ → Option (MedianFilter × List ℚ)
  | [] => some (mf, [])
  | s :: rest => do
    let r1 ← mf.process s
    let r2 ← processSeq r1.1 rest
    some (r2.1, r1.2 :: r2.2)

/-- A freshly constructed filter: zeroed buffers, offset 0, not full. -/
def freshFilter : MedianFilter :=
  ⟨[0, 0, 0, 0, 0], [0], [0, 0], [0, 0, 0], [0, 0, 0, 0], 0, false⟩

/-! ## Convolver -/

/-- One term-by-term summation of `convolve`'s inner iterator:
`slice.iter().enumerate().map(|(j, k)| input[i - j] * *k).sum()`.
`j` counts positions inside the kernel slice; `input[i - j]` is a checked
read (`none` on underflow or out-of-bounds). -/
def convolveSum (input : List ℚ) (i : Nat) : List ℚ → Nat → Option ℚ
  | [], _ => some 0
  | k :: ks, j => do
    let d ← checkedSub i j
    let x ← input.get? d
    let rest ← convolveSum input i ks (j + 1)
    some (x * k + rest)

/-- The value `convolve` writes at output index `i`: the kernel slice is
`kernel[a..=b]` with `a = if i < input_length then 0 else i - input_length - 1`
and `b = if i < kernel_length then 0 else kernel_length - 1`, exactly as the
source computes it.  `none` models the slice/index panics. -/
def convolveEntry (input kernel : List ℚ) (i : Nat) : Option ℚ := do
  let a ← if i < input.length then some 0 else checkedSub i (input.length + 1)
  let b := if i < kernel.length then 0 else kernel.length - 1
  if a ≤ b + 1 ∧ b + 1 ≤ kernel.length then
    convolveSum input i ((kernel.take (b + 1)).drop a) 0
  else none

/-- The descending write loop of `convolve`: writes indices `m - 1, …, 0`. -/
def convolveLoop (input kernel : List ℚ) : Nat → List ℚ → Option (List ℚ)
  | 0, output => some output
  | i + 1, output => do
    let v ← convolveEntry input kernel i
    let output2 ← setA output i v
    convolveLoop input kernel i output2

/-- `convolve`.  The iteration space is `(0..length - 1).zip(output.iter_mut())`,
so `min (length - 1) output.length` entries are written; `length - 1` is a
checked `usize` subtraction (`none` on `length == 0`). -/
def convolve (input kernel : List ℚ) (length : Nat) (output : List ℚ) : Option (List ℚ) := do
  let n ← checkedSub length 1
  convolveLoop input kernel (min n output.length) output

/-! ## Interpolator -/

/-- The forward scan of `interpolate1d` over the slice `x[start_x..end_x]`.
`i` is the index of the current element relative to the slice, exactly as the
source's `enumerate` produces it; on a hit at `i > 0` the source nevertheless
indexes `x` and `y` at the relative positions `i - 1` and `i`, and divides by
`x[i] / x0` (not `x[i] - x0`).  Outer `none` is a panic on an out-of-range
`y`/`x` read; inner `none` means the scan was exhausted. -/
def interpFind (v : ℚ) (x y : List ℚ) (lower : ℚ) (off : Nat) :
    List ℚ → Nat → Option (Option (ℚ × Nat))
  | [], _ => some none
  | ix :: rest, i =>
    if v < ix then
      if i = 0 then some (some (lower, 1))
      else
        match x.get? (i - 1), y.get? (i - 1 + off), y.get? (i + off) with
        | some x0, some y0, some y1 =>
          some (some (y0 + (y1 - y0) * (v - x0) / (ix / x0), i + 1))
        | _, _, _ => none
    else interpFind v x y lower off rest (i + 1)

/-- `interpolate1d`.  Returns the interpolated value together with the updated
cached start index (`start_x` is `&mut` in the source); `none` models the
slice panic when `start_x > end_x` or `end_x > x.len()`, or an out-of-range
read during the scan. -/
def interpolate1d (v : ℚ) (x y : List ℚ) (lower upper : ℚ)
    (y_index_offset start_x end_x : Nat) : Option (ℚ × Nat) :=
  if start_x ≤ end_x ∧ end_x ≤ x.length then
    match interpFind v x y lower y_index_offset ((x.take end_x).drop start_x) 0 with
    | none => none
    | some (some r) => some r
    | some none => some (upper, 0)
  else none

/-! ## Modal synthesizer -/

/-- The fill loop of `mode_sinusoid`:
`(0..mode_count).map(|t| t as f64 / framerate).zip(mode.iter_mut())` updates
the first `min mode_count mode.length` entries.  `i` is the running index. -/
def modeFill (cosF powTenF : ℚ → ℚ) (q pow dcy framerate : ℚ) :
    Nat → Nat → List ℚ → List ℚ
  | _, _, [] => []
  | i, cnt, m :: ms =>
    (if i < cnt then
        cosF ((i : ℚ) / framerate * q) * pow * powTenF ((i : ℚ) / framerate * dcy)
      else m) :: modeFill cosF powTenF q pow dcy framerate (i + 1) cnt ms

/-- `mode_sinusoid`.  `cosF` models `f64::cos`, `powTenF` models
`x ↦ 10.0f64.powf(x)`, and `tauC` the constant `TAU`. -/
def mode_sinusoid (cosF powTenF : ℚ → ℚ) (tauC : ℚ)
    (power decay frequency resonance : ℚ) (mode_count : Nat) (framerate : ℚ)
    (mode : List ℚ) : List ℚ :=
  let pow := powTenF (power / 20)
  let dcy := -60 / (decay * resonance / 1000) / 20
  let q := frequency * tauC
  modeFill cosF powTenF q pow dcy framerate 0 mode_count mode

/-! ## Scrape force generator -/

/-- `SCRAPE_LINEAR_SPACE_LEN`. -/
def SCRAPE_LEN : Nat := 4410

/-- `SCRAPE_LINEAR_SPACE_STEP = 1.0 / (SCRAPE_LINEAR_SPACE_LEN - 1)`. -/
def scrapeStep : ℚ := 1 / 4409

/-- The per-grid-point force loop of `get_scrape`:
`SCRAPE_LINEAR_SPACE.iter().zip(force.iter_mut())`.  `j` is the grid index,
`hIdx`/`vIdx` the two interpolation caches.  The horizontal channel is queried
at the grid sample `s = j * scrapeStep`; the vertical channel is queried at
`fOld`, the pre-assignment content of the force entry, exactly as the source
reads `*f` on the right-hand side of the assignment. -/
def scrapeLoop (tanhF : ℚ → ℚ) (ls dsdx d2sdx2 : List ℚ)
    (lowerD upperD lowerD2 upperD2 horizontal vertical curve_mass : ℚ)
    (scrape_idx num_points : Nat) :
    Nat → Nat → Nat → MedianFilter → List ℚ →
    Option (List ℚ × Nat × Nat × MedianFilter)
  | _, hIdx, vIdx, mf, [] => some ([], hIdx, vIdx, mf)
  | j, hIdx, vIdx, mf, fOld :: rest =>
    if j < SCRAPE_LEN then do
      let s := (j : ℚ) * scrapeStep
      let rh ← interpolate1d s ls dsdx lowerD upperD scrape_idx hIdx num_points
      let rv ← interpolate1d fOld ls d2sdx2 lowerD2 upperD2 scrape_idx vIdx num_points
      let rm ← mf.process (tanhF (rv.1 / curve_mass))
      let fNew := horizontal * rh.1 + vertical * rm.2
      let rrest ← scrapeLoop tanhF ls dsdx d2sdx2 lowerD upperD lowerD2 upperD2
        horizontal vertical curve_mass scrape_idx num_points
        (j + 1) rh.2 rv.2 rm.1 rest
      some (fNew :: rrest.1, rrest.2)
    else some (fOld :: rest, hIdx, vIdx, mf)

/-- `get_scrape`.  Returns the updated scrape index, linear space, force
buffer, median filter state and output samples (all `&mut` in the source);
`tanhF` models `f64::tanh`. -/
def get_scrape (tanhF : ℚ → ℚ)
    (primary_mass scrape_speed max_speed roughness_ratio simulation_amp scrape_amp : ℚ)
    (scrape_index num_points : Nat)
    (dsdx d2sdx2 linear_space force impulse_response : List ℚ)
    (median_filter : MedianFilter) (samples : List ℚ) :
    Option (Nat × List ℚ × List ℚ × MedianFilter × List ℚ) := do
  let npm1 ← checkedSub num_points 1
  let step : ℚ := 1 / (npm1 : ℚ)
  let ls ← if num_points ≤ linear_space.length then
      some (((List.range num_points).map (fun i => (i : ℚ) * step))
        ++ linear_space.drop num_points)
    else none
  let si2 := if dsdx.length < scrape_index + num_points then 0 else scrape_index
  let final_index := if dsdx.length < scrape_index + num_points then num_points
    else scrape_index + num_points
  let lower_dsdx ← dsdx.get? si2
  let upper_dsdx ← dsdx.get? final_index
  let lower_d2sdx2 ← d2sdx2.get? si2
  let upper_d2sdx2 ← d2sdx2.get? final_index
  let vertical := (0.5 : ℚ) * (scrape_speed / max_speed) ^ 2
  let horizontal := (0.05 : ℚ) * (scrape_speed / max_speed)
  let curve_mass := 10 * primary_mass
  let rloop ← scrapeLoop tanhF ls dsdx d2sdx2 lower_dsdx upper_dsdx
    lower_d2sdx2 upper_d2sdx2 horizontal vertical curve_mass si2 num_points
    0 0 0 median_filter force
  let samples2 ← convolve impulse_response rloop.1 SCRAPE_LEN samples
  let a := roughness_ratio * simulation_amp * scrape_amp
  let samples3 := samples2.map (fun v => v * a)
  some (final_index, ls, rloop.1, rloop.2.2.2, samples3)

/-- Modelled from the spec's words for claim C4: for output index `i` the
kernel sub-range consulted is `[max(0, i-input_length-1) .. min(kernel_length-1, i)]`
in source-index terms, summing `input[i-j] * kernel[j]`, with indices outside
the valid ranges of `input`/`kernel` excluded (zero-padding). -/
def convolveEntrySpecC4 (input kernel : List ℚ) (i : Nat) : ℚ :=
  ∑ j in Finset.range kernel.length,
    if i - (input.length + 1) ≤ j ∧ j ≤ min (kernel.length - 1) i
        ∧ j ≤ i ∧ i - j < input.length
      then input.getD (i - j) 0 * kernel.getD j 0 else 0

/-! ## Theorems settling the claims -/

/-- C6: the claim says the filter fed `5, 3, 1, 4, 2` returns the medians
`5, 4, 3, 7/2, 3` of the pushed prefixes.  In fact the first two pushes return
`0` (the sample is written at `buffer[offset]` at the back of the ring buffer,
but `process` copies the still-zero front slice `buffer[0..length]` into the
scratch buffer and takes its median), and the third push panics inside
`select_in_place` (the partition scan `find(v < pivot).unwrap()` finds no
element below the pivot), so the claimed outputs `5, 4, 3, 7/2, 3` are never
produced. -/
theorem median_filter_first_pushes :
    (processSeq freshFilter [5, 3]).map (fun r => r.2) = some [0, 0]
    ∧ (0 : ℚ) ≠ 5 ∧ (0 : ℚ) ≠ 4
    ∧ processSeq freshFilter [5, 3, 1, 4, 2] = none := by
  refine ⟨?_, by norm_num, by norm_num, by rfl⟩
  have h1 : freshFilter.process 5
      = some (⟨[0, 0, 0, 0, 5], [0], [0, 0], [0, 0, 0], [0, 0, 0, 0], 4, false⟩, 0) := by
    simp only [MedianFilter.process, freshFilter, setA, median_in_place, select_in_place,
      listMin, listMax, checkedSub]
    norm_num
  have h2 : (MedianFilter.process
        ⟨[0, 0, 0, 0, 5], [0], [0, 0], [0, 0, 0], [0, 0, 0, 0], 4, false⟩ 3)
      = some (⟨[0, 0, 0, 3, 5], [0], [0, 0], [0, 0, 0], [0, 0, 0, 0], 3, false⟩, 0) := by
    simp only [MedianFilter.process, setA, median_in_place, select_in_place,
      listMin, listMax, checkedSub]
    norm_num
  simp [processSeq, h1, h2]

/-- C7: the claim says that after pushing `N+5` samples, the last `process`
call returns the median of the last 5 samples.  At `N = 0` with samples
`1, 2, 3, 4, 5` the run panics at the third push (the partition scan in
`select_in_place` unwraps an empty `find`) instead of returning the median
`3`. -/
theorem median_filter_sliding_fails :
    processSeq freshFilter [1, 2, 3, 4, 5] = none
    ∧ (processSeq freshFilter [1, 2, 3, 4, 5]).map (fun r => r.2.getLast?)
        ≠ some (some 3) := by
  have h : processSeq freshFilter [1, 2, 3, 4, 5] = none := by rfl
  exact ⟨h, by simp [h]⟩

/-- C3: the claim says the interpolation at a hit `i > 0` divides by
`x[i] - x0`.  The code divides by `x[i] / x0`: at `v = 2`, `x = [1, 3]`,
`y = [0, 10]` it returns `0 + (10 - 0)·(2 - 1)/(3/1) = 10/3` (with the cache
set to `i + 1 = 2`), while the linear interpolation the claim states evaluates
to `0 + (10 - 0)·(2 - 1)/(3 - 1) = 5`. -/
theorem interpolate1d_ratio_division :
    interpolate1d 2 [1, 3] [0, 10] 0 0 0 0 2 = some (10 / 3, 2)
    ∧ (10 / 3 : ℚ) ≠ 5 := by
  constructor
  · simp only [interpolate1d, interpFind]
    norm_num
  · norm_num

/-- C5: the claim says `convolve` with `length == 0` performs no computation
and does not panic.  In fact `length - 1` underflows `usize` (a panic under
overflow-checked semantics; under wrapping semantics the range is not empty
either), so the call traps instead of leaving the output unchanged. -/
theorem convolve_length_zero_not_noop :
    convolve ([1] : List ℚ) [1] 0 [7] = none
    ∧ convolve ([1] : List ℚ) [1] 0 [7] ≠ some [7] := by
  have h : convolve ([1] : List ℚ) [1] 0 [7] = none := by rfl
  exact ⟨h, by simp [h]⟩

/-- C5 (amended): `length == 0` traps in the `length - 1` subtraction, while
`length == 1` is the defined empty-range no-op: the descending range `0..0`
is empty, nothing is computed and the output is left unchanged. -/
theorem convolve_length_edge_cases : ∀ input kernel output : List ℚ,
    convolve input kernel 0 output = none
    ∧ convolve input kernel 1 output = some output := by
  intro input kernel output
  refine ⟨rfl, ?_⟩
  simp [convolve, checkedSub, convolveLoop, Nat.zero_min]

/-- C1: the claim says a tick with `L ≥ P` and `0 ≤ scrape_index ≤ L - P`
never reads `dsdx`/`d2sdx2` outside `[0, L)` and never panics from such a
read.  With `L = 3`, `P = 2`, `scrape_index = 1 = L - P` the wrap test
`final_index > dsdx.len()` does not fire (`3 > 3` is false) and the boundary
read `dsdx[final_index] = dsdx[3]` is out of bounds, so the tick panics; the
same tick from `scrape_index = 0` completes. -/
theorem scrape_tick_oob_at_cursor_end :
    get_scrape id 1 1 1 1 1 1 1 2 [1, 2, 3] [1, 2, 3] [0, 0] [] [] freshFilter [] = none
    ∧ (get_scrape id 1 1 1 1 1 1 0 2 [1, 2, 3] [1, 2, 3] [0, 0] [] [] freshFilter
        []).isSome = true := by
  exact ⟨rfl, rfl⟩

set_option maxHeartbeats 2000000 in
/-- C2: the claim says the vertical channel's interpolation query is the
current grid sample (`s = 0` for the single grid point exercised here), which
would feed `tanh(interpolate(0)/curve_mass)` into the median filter
independently of the force buffer's prior contents.  The code instead passes
the stale force entry `*f`: with `force = [2]` the query `2` falls past the
linear space, the interpolation returns the upper boundary value
`d2sdx2[final_index] = 100`, and the median buffer stores `100`; with
`force = [0]` it stores `0`.  Two ticks differing only in the prior force
contents end in different median-filter states, which is impossible under the
claim. -/
theorem scrape_vertical_query_state_leakage :
    get_scrape id (1 / 10) 1 1 1 1 1 0 2 [0, 0, 0] [0, 0, 100] [0, 0] [2] []
        freshFilter []
      = some (2, [0, 1], [0],
          ⟨[0, 0, 0, 0, 100], [0], [0, 0], [0, 0, 0], [0, 0, 0, 0], 4, false⟩, [])
    ∧ get_scrape id (1 / 10) 1 1 1 1 1 0 2 [0, 0, 0] [0, 0, 100] [0, 0] [0] []
        freshFilter []
      = some (2, [0, 1], [0],
          ⟨[0, 0, 0, 0, 0], [0], [0, 0], [0, 0, 0], [0, 0, 0, 0], 4, false⟩, [])
    ∧ (100 : ℚ) ≠ 0 := by
  refine ⟨?_, ?_, by norm_num⟩
  · simp only [get_scrape, scrapeLoop, interpolate1d, interpFind, MedianFilter.process,
      median_in_place, select_in_place, listMin, listMax, setA, swapA, checkedSub,
      convolve, convolveLoop, convolveEntry, convolveSum, freshFilter, scrapeStep,
      SCRAPE_LEN, List.range_succ, List.range_zero]
    norm_num [interpFind, convolveLoop]
  · simp only [get_scrape, scrapeLoop, interpolate1d, interpFind, MedianFilter.process,
      median_in_place, select_in_place, listMin, listMax, setA, swapA, checkedSub,
      convolve, convolveLoop, convolveEntry, convolveSum, freshFilter, scrapeStep,
      SCRAPE_LEN, List.range_succ, List.range_zero]
    norm_num [interpFind, convolveLoop]

/-- C10: a synthesis tick is a deterministic function of its explicit inputs
and threaded state: two runs from equal input buffers and parameters, an
identically reset scrape cursor and an identically reset median-filter state
produce equal results (the embedding threads all mutable state explicitly;
the source has no other state besides the immutable lazily-built grid). -/
theorem get_scrape_deterministic (tanhF : ℚ → ℚ)
    (pm ss ms rr sa sca : ℚ) (np : Nat)
    (dsdx d2sdx2 ls force ir smp : List ℚ)
    (si1 si2 : Nat) (mf1 mf2 : MedianFilter)
    (hsi : si1 = si2) (hmf : mf1 = mf2) :
    get_scrape tanhF pm ss ms rr sa sca si1 np dsdx d2sdx2 ls force ir mf1 smp
      = get_scrape tanhF pm ss ms rr sa sca si2 np dsdx d2sdx2 ls force ir mf2 smp := by
  rw [hsi, hmf]

/-- Witness for the determinism theorem at a concrete completed tick. -/
theorem get_scrape_deterministic_witness :
    (0 : Nat) = 0 ∧ freshFilter = freshFilter
    ∧ get_scrape id 1 1 1 1 1 1 0 2 [1, 2, 3] [1, 2, 3] [0, 0] [] [] freshFilter []
      = get_scrape id 1 1 1 1 1 1 0 2 [1, 2, 3] [1, 2, 3] [0, 0] [] [] freshFilter [] :=
  ⟨rfl, rfl,
    get_scrape_deterministic id 1 1 1 1 1 1 2 [1, 2, 3] [1, 2, 3] [0, 0] [] [] []
      0 0 freshFilter freshFilter rfl rfl⟩

/-- `l.get? n` succeeds below the length and returns the `getD` value. -/
theorem get?_eq_some_getD (l : List ℚ) : ∀ n : Nat, n < l.length → l.get? n = some (l.getD n 0) := by
  induction l with
  | nil => intro n h; simp at h
  | cons a l ih =>
    intro n h
    cases n with
    | zero => rfl
    | succ m => exact ih m (by simpa using h)

/-- Reading the written position of `List.set`. -/
theorem get?_set_self (l : List ℚ) : ∀ n : Nat, n < l.length → ∀ v, (l.set n v).get? n = some v := by
  induction l with
  | nil => intro n h; simp at h
  | cons a l ih =>
    intro n h v
    cases n with
    | zero => rfl
    | succ m => exact ih m (by simpa using h) v

/-- Reading any other position of `List.set`. -/
theorem get?_set_other (l : List ℚ) : ∀ n t : Nat, n ≠ t → ∀ v, (l.set n v).get? t = l.get? t := by
  induction l with
  | nil => intro n t _ v; rfl
  | cons a l ih =>
    intro n t h v
    cases n with
    | zero =>
      cases t with
      | zero => exact absurd rfl h
      | succ s => rfl
    | succ m =>
      cases t with
      | zero => rfl
      | succ s => exact ih m s (fun he => h (by rw [he])) v

/-- Values of `List.take` agree with the original list below the cut. -/
theorem getD_take (l : List ℚ) : ∀ n t : Nat, t < n → (l.take n).getD t 0 = l.getD t 0 := by
  induction l with
  | nil => intro n t _; simp
  | cons a l ih =>
    intro n t h
    cases n with
    | zero => exact absurd h (Nat.not_lt_zero t)
    | succ m =>
      cases t with
      | zero => rfl
      | succ s => exact ih m s (by simpa using h)

/-- The inner iterator sum of `convolve` as a `Finset` sum, when every
`input[i - j]` read is in range. -/
theorem convolveSum_eq (input : List ℚ) (i : Nat) :
    ∀ (ks : List ℚ) (j : Nat),
      (∀ t, t < ks.length → j + t ≤ i ∧ i - (j + t) < input.length) →
      convolveSum input i ks j
        = some (∑ t in Finset.range ks.length, input.getD (i - (j + t)) 0 * ks.getD t 0) := by
  intro ks
  induction ks with
  | nil => intro j _; simp [convolveSum]
  | cons k ks ih =>
    intro j h
    have h0 := h 0 (by simp)
    have hj : j ≤ i := by simpa using h0.1
    have hlt : i - j < input.length := by simpa using h0.2
    have hrest := ih (j + 1) (by
      intro t ht
      have := h (t + 1) (by simpa using Nat.succ_lt_succ ht)
      constructor
      · have h1 := this.1
        omega
      · have h2 := this.2
        have : j + 1 + t = j + (t + 1) := by omega
        rw [this]
        exact h2)
    simp only [convolveSum, checkedSub, if_pos hj, get?_eq_some_getD input (i - j) hlt,
      hrest, Option.bind_eq_bind, Option.some_bind, List.length_cons]
    rw [Finset.sum_range_succ']
    simp only [List.getD_cons_succ, List.getD_cons_zero, Nat.add_zero]
    have hidx : ∀ t : Nat, j + (t + 1) = j + 1 + t := by omega
    rw [Option.some.injEq]
    have hcong : ∀ t ∈ Finset.range ks.length,
        input.getD (i - (j + (t + 1))) 0 * ks.getD t 0
          = input.getD (i - (j + 1 + t)) 0 * ks.getD t 0 := by
      intro t _
      rw [hidx t]
    rw [Finset.sum_congr rfl hcong]
    ring

/-- C4 (amended): for every output index `i` that `convolve` writes with
`i < input_length` and a nonempty kernel, the kernel slice consulted is
`[0 ..= b]` with `b = 0` when `i < kernel_length` and `b = kernel_length - 1`
otherwise (requiring `b ≤ i`), and the written value is
`∑ j in [0..b], input[i-j]·kernel[j]` — not the claim's window
`[max(0, i-input_length-1) .. min(kernel_length-1, i)]`; out-of-range reads
panic instead of contributing zero. -/
theorem convolveEntry_window (input kernel : List ℚ) (i : Nat)
    (h1 : i < input.length) (hk : kernel ≠ [])
    (hb : (if i < kernel.length then 0 else kernel.length - 1) ≤ i) :
    convolveEntry input kernel i
      = some (∑ j in Finset.range ((if i < kernel.length then 0 else kernel.length - 1) + 1),
          input.getD (i - j) 0 * kernel.getD j 0) := by
  have hkpos : 0 < kernel.length := List.length_pos.2 hk
  set b := (if i < kernel.length then 0 else kernel.length - 1) with hbdef
  have hbk : b + 1 ≤ kernel.length := by
    by_cases hik : i < kernel.length
    · simp only [hbdef, if_pos hik]
      omega
    · simp only [hbdef, if_neg hik]
      omega
  have hlen : (kernel.take (b + 1)).length = b + 1 := by
    rw [List.length_take]
    exact Nat.min_eq_left hbk
  have hsum := convolveSum_eq input i (kernel.take (b + 1)) 0 (by
    intro t ht
    rw [hlen] at ht
    constructor
    · omega
    · exact Nat.lt_of_le_of_lt (Nat.sub_le i (0 + t)) h1)
  simp only [convolveEntry, if_pos h1, ← hbdef, if_pos (And.intro (Nat.le_add_left 0 (b + 1)) hbk),
    Option.bind_eq_bind, Option.some_bind, List.drop_zero]
  rw [hsum, Option.some.injEq, hlen]
  refine Finset.sum_congr rfl (fun t ht => ?_)
  rw [Nat.zero_add, getD_take kernel (b + 1) t (Finset.mem_range.1 ht)]

/-- Witness for the amended convolution-window theorem at `input = [1, 2]`,
`kernel = [3]`, `i = 1`. -/
theorem convolveEntry_window_witness :
    ((1 : Nat) < ([1, 2] : List ℚ).length ∧ ([3] : List ℚ) ≠ []
      ∧ (if (1 : Nat) < ([3] : List ℚ).length then 0 else ([3] : List ℚ).length - 1) ≤ 1)
    ∧ convolveEntry [1, 2] [3] 1
      = some (∑ j in Finset.range ((if (1 : Nat) < ([3] : List ℚ).length then 0
            else ([3] : List ℚ).length - 1) + 1),
          ([1, 2] : List ℚ).getD (1 - j) 0 * ([3] : List ℚ).getD j 0) :=
  ⟨⟨by norm_num, by simp, by norm_num⟩,
    convolveEntry_window [1, 2] [3] 1 (by norm_num) (by simp) (by norm_num)⟩

/-- C4 (counterexample): at `input = kernel = [1, 1, 1]`, output index `1`,
the claim's window `[0 .. min(2, 1)] = [0 .. 1]` sums to `2`, but the code
consults only `kernel[0..=0]` and writes `1`. -/
theorem convolve_window_counterexample :
    convolve [1, 1, 1] [1, 1, 1] 3 [0, 0, 0] = some [1, 1, 0]
    ∧ convolveEntry [1, 1, 1] [1, 1, 1] 1 = some 1
    ∧ convolveEntrySpecC4 [1, 1, 1] [1, 1, 1] 1 = 2
    ∧ (1 : ℚ) ≠ 2 := by
  refine ⟨?_, ?_, ?_, by norm_num⟩
  · norm_num [convolve, convolveLoop, convolveEntry, convolveSum, checkedSub, setA]
  · norm_num [convolveEntry, convolveSum, checkedSub]
  · norm_num [convolveEntrySpecC4, Finset.sum_range_succ]

/-- The value `convolve` writes against the single-impulse kernel `[1]`. -/
theorem convolveEntry_impulse (input : List ℚ) (i : Nat) (h : i < input.length) :
    convolveEntry input [1] i = some (input.getD i 0) := by
  norm_num [convolveEntry, convolveSum, checkedSub, h, get?_eq_some_getD input i h]

/-- The write loop of `convolve` against the kernel `[1]` copies the input
prefix and leaves the rest of the output unchanged. -/
theorem convolveLoop_impulse (input : List ℚ) :
    ∀ (m : Nat) (output : List ℚ), m ≤ input.length → m ≤ output.length →
      ∃ out2, convolveLoop input [1] m output = some out2
        ∧ out2.length = output.length
        ∧ (∀ t, t < m → out2.get? t = input.get? t)
        ∧ (∀ t, m ≤ t → out2.get? t = output.get? t) := by
  intro m
  induction m with
  | zero =>
    intro output _ _
    exact ⟨output, rfl, rfl, fun t ht => absurd ht (Nat.not_lt_zero t), fun t _ => rfl⟩
  | succ m ih =>
    intro output h1 h2
    have hm : m < input.length := Nat.lt_of_lt_of_le (Nat.lt_succ_self m) h1
    have hmo : m < output.length := Nat.lt_of_lt_of_le (Nat.lt_succ_self m) h2
    have hset : setA output m (input.getD m 0) = some (output.set m (input.getD m 0)) := by
      simp [setA, hmo]
    obtain ⟨out2, hout, hlen, hin, hkeep⟩ := ih (output.set m (input.getD m 0))
      (Nat.le_of_lt hm) (by rw [List.length_set]; exact Nat.le_of_lt hmo)
    refine ⟨out2, ?_, ?_, ?_, ?_⟩
    · simp only [convolveLoop, convolveEntry_impulse input m hm, hset,
        Option.bind_eq_bind, Option.some_bind]
      exact hout
    · rw [hlen, List.length_set]
    · intro t ht
      rcases Nat.lt_succ_iff_lt_or_eq.1 ht with hlt | heq
      · exact hin t hlt
      · subst heq
        rw [hkeep t (Nat.le_refl t), get?_set_self output t hmo,
          get?_eq_some_getD input t hm]
    · intro t ht
      have hmt : m ≠ t := by omega
      rw [hkeep t (Nat.le_of_succ_le ht), get?_set_other output m t hmt]

/-- C8 (amended): convolving against the single-impulse kernel `[1.0]`
reproduces the input on the indices the loop writes, `0 ≤ i < length - 1`
(and within the output buffer); the entry at `length - 1` and beyond is left
unchanged, because the descending loop over `0..length-1` never writes index
`length - 1`. -/
theorem convolve_impulse_identity (input output : List ℚ) (length : Nat)
    (h1 : 1 ≤ length) (h2 : length ≤ input.length) :
    ∃ out2, convolve input [1] length output = some out2
      ∧ (∀ t, t < length - 1 → t < output.length → out2.get? t = input.get? t)
      ∧ (∀ t, length - 1 ≤ t → out2.get? t = output.get? t) := by
  have hcs : checkedSub length 1 = some (length - 1) := by simp [checkedSub, h1]
  have hm1 : min (length - 1) output.length ≤ input.length := by
    have := Nat.min_le_left (length - 1) output.length
    omega
  have hm2 : min (length - 1) output.length ≤ output.length :=
    Nat.min_le_right _ _
  obtain ⟨out2, hout, _, hin, hkeep⟩ :=
    convolveLoop_impulse input (min (length - 1) output.length) output hm1 hm2
  refine ⟨out2, ?_, ?_, ?_⟩
  · simp only [convolve, hcs, Option.bind_eq_bind, Option.some_bind]
    exact hout
  · intro t ht hto
    exact hin t (by omega)
  · intro t ht
    exact hkeep t (le_trans (Nat.min_le_left _ _) ht)

/-- Witness for the amended impulse-identity theorem at `input = [1, 2]`,
`output = [0, 0]`, `length = 2`. -/
theorem convolve_impulse_identity_witness :
    ((1 : Nat) ≤ 2 ∧ (2 : Nat) ≤ ([1, 2] : List ℚ).length)
    ∧ ∃ out2, convolve [1, 2] [1] 2 [0, 0] = some out2
        ∧ (∀ t, t < 2 - 1 → t < ([0, 0] : List ℚ).length →
            out2.get? t = ([1, 2] : List ℚ).get? t)
        ∧ (∀ t, 2 - 1 ≤ t → out2.get? t = ([0, 0] : List ℚ).get? t) :=
  ⟨⟨by norm_num, by norm_num⟩,
    convolve_impulse_identity [1, 2] [0, 0] 2 (by norm_num) (by norm_num)⟩

/-- C8 (counterexample): the claim as stated requires `output[i] = input[i]`
for every `i < length`; with `input = [1, 2]`, `length = 2` and prior output
contents `[5, 7]` the code leaves `output[1] = 7 ≠ 2`, because index
`length - 1` is never written. -/
theorem convolve_impulse_counterexample :
    convolve [1, 2] [1] 2 [5, 7] = some [1, 7]
    ∧ ([1, 7] : List ℚ) ≠ [1, 2] := by
  constructor
  · norm_num [convolve, convolveLoop, convolveEntry, convolveSum, checkedSub, setA]
  · norm_num

/-- Entries of the `mode_sinusoid` fill loop. -/
theorem modeFill_get? (cosF powTenF : ℚ → ℚ) (q pow dcy fr : ℚ) (cnt : Nat) :
    ∀ (ms : List ℚ) (i j : Nat), j < ms.length →
      (modeFill cosF powTenF q pow dcy fr i cnt ms).get? j
        = some (if i + j < cnt then
            cosF (((i + j : Nat) : ℚ) / fr * q) * pow * powTenF (((i + j : Nat) : ℚ) / fr * dcy)
          else ms.getD j 0) := by
  intro ms
  induction ms with
  | nil => intro i j h; simp at h
  | cons m ms ih =>
    intro i j h
    cases j with
    | zero => simp [modeFill]
    | succ t =>
      have htail := ih (i + 1) t (by simpa using h)
      have hidx : i + 1 + t = i + (t + 1) := by omega
      rw [hidx] at htail
      simpa [modeFill] using htail

/-- C9: `mode_sinusoid` fills entry `i < mode_count` with
`cos(t·2π·frequency) · 10^(power/20) · 10^(t·dcy)` where `t = i/framerate`
and `dcy = -60/(decay·resonance/1000)/20`; in particular, since `cos 0 = 1`
and `10^0 = 1`, the sample at `t = 0` is exactly `10^(power/20)`. -/
theorem mode_sinusoid_formula (cosF powTenF : ℚ → ℚ)
    (tauC power decay frequency resonance framerate : ℚ)
    (mode_count : Nat) (mode : List ℚ) (i : Nat)
    (hi : i < mode_count) (him : i < mode.length) (hfr : 0 < framerate)
    (hcos : cosF 0 = 1) (hpow : powTenF 0 = 1) :
    (mode_sinusoid cosF powTenF tauC power decay frequency resonance mode_count
        framerate mode).get? i
      = some (cosF ((i : ℚ) / framerate * (frequency * tauC)) * powTenF (power / 20)
          * powTenF ((i : ℚ) / framerate * (-60 / (decay * resonance / 1000) / 20)))
    ∧ (0 < mode.length →
      (mode_sinusoid cosF powTenF tauC power decay frequency resonance mode_count
          framerate mode).get? 0
        = some (powTenF (power / 20))) := by
  constructor
  · have hfill := modeFill_get? cosF powTenF (frequency * tauC) (powTenF (power / 20))
      (-60 / (decay * resonance / 1000) / 20) framerate mode_count mode 0 i him
    simp only [mode_sinusoid]
    simpa [hi] using hfill
  · intro h0
    have h0c : 0 < mode_count := Nat.lt_of_le_of_lt (Nat.zero_le i) hi
    have hfill := modeFill_get? cosF powTenF (frequency * tauC) (powTenF (power / 20))
      (-60 / (decay * resonance / 1000) / 20) framerate mode_count mode 0 0 h0
    simp only [mode_sinusoid]
    simpa [h0c, hcos, hpow] using hfill

/-- Witness for the modal-synthesizer theorem at concrete parameters with
constant hook functions satisfying `cosF 0 = 1` and `powTenF 0 = 1`. -/
theorem mode_sinusoid_formula_witness :
    ((0 : Nat) < 1 ∧ (0 : Nat) < ([7] : List ℚ).length ∧ (0 : ℚ) < 2
      ∧ (fun _ : ℚ => (1 : ℚ)) 0 = 1 ∧ (fun _ : ℚ => (1 : ℚ)) 0 = 1)
    ∧ ((mode_sinusoid (fun _ => 1) (fun _ => 1) 6 3 1 5 1 1 2 [7]).get? 0
        = some ((fun _ : ℚ => (1 : ℚ)) (((0 : Nat) : ℚ) / 2 * (5 * 6))
            * (fun _ : ℚ => (1 : ℚ)) (3 / 20)
            * (fun _ : ℚ => (1 : ℚ)) (((0 : Nat) : ℚ) / 2 * (-60 / (1 * 1 / 1000) / 20)))
      ∧ (0 < ([7] : List ℚ).length →
        (mode_sinusoid (fun _ => 1) (fun _ => 1) 6 3 1 5 1 1 2 [7]).get? 0
          = some ((fun _ : ℚ => (1 : ℚ)) (3 / 20)))) :=
  ⟨⟨by norm_num, by norm_num, by norm_num, rfl, rfl⟩,
    mode_sinusoid_formula (fun _ => 1) (fun _ => 1) 6 3 1 5 1 2 1 [7] 0
      (by norm_num) (by norm_num) (by norm_num) rfl rfl⟩

end Clatter
